import Mathlib

/-!
Shallow embedding of the leave-normalization tool (src/app.py) and proofs of
its specified properties.  Dates are modelled as integer day numbers (days
since the civil epoch 1970-01-01); pandas Timestamps admit exactly this
day-level arithmetic.  Day counts are rationals, since half-day rows carry
the value 0.5.  Session and status values are strings, as in the source,
after the pandas string-normalization pass (strip + title).
-/

namespace LeaveApp

/-- Python str.lower (ASCII range), as applied by pandas .str.lower(). -/
def pyLower (s : String) : String := String.mk (s.data.map Char.toLower)

/-- Python str.strip: remove leading and trailing whitespace. -/
def pyStrip (s : String) : String :=
  String.mk ((s.data.dropWhile Char.isWhitespace).reverse.dropWhile Char.isWhitespace).reverse

/-- Helper for pyTitle: walk the characters, tracking whether the previous
character was alphabetic. -/
def titleChars : Bool → List Char → List Char
| _, [] => []
| prevAlpha, c :: cs =>
  if c.isAlpha then
    (if prevAlpha then c.toLower else c.toUpper) :: titleChars true cs
  else
    c :: titleChars false cs

/-- Python str.title (ASCII range): the first letter of each alphabetic run is
uppercased, the following letters are lowercased. -/
def pyTitle (s : String) : String := String.mk (titleChars false s.data)

/-- String normalization applied to the FromSession, ToSession and Status
columns (src/app.py lines 114-121): fillna("") then .str.strip().str.title().
Null cells are modelled as the empty string, which fillna("") produces. -/
def cleanStr (s : String) : String := pyTitle (pyStrip s)

/-- Does the character list hay start with needle? -/
def startsWithChars : List Char → List Char → Bool
| [], _ => true
| _ :: _, [] => false
| a :: as, b :: bs => a == b && startsWithChars as bs

/-- Does needle occur as a contiguous run inside hay? -/
def hasSub (needle hay : List Char) : Bool :=
  startsWithChars needle hay ||
    match hay with
    | [] => false
    | _ :: t => hasSub needle t

/-- Substring test used to model re.search of a literal pattern
(src/app.py line 77). -/
def strContains (hay needle : String) : Bool := hasSub needle.data hay.data

/-- calendar.month_name entries, lowercased and paired with their index, in
enumeration order January..December (src/app.py line 72). -/
def monthNames : List (String × Nat) :=
  [("january", 1), ("february", 2), ("march", 3), ("april", 4),
   ("may", 5), ("june", 6), ("july", 7), ("august", 8),
   ("september", 9), ("october", 10), ("november", 11), ("december", 12)]

/-- Month detection from the file name (src/app.py lines 72-83): scan the
lowercased identifier for the twelve month names in enumeration order; the
first substring match wins; none found means the batch stops. -/
def selectMonth (ident : String) : Option Nat :=
  (monthNames.find? (fun p => strContains (pyLower ident) p.1)).map (fun p => p.2)

/-- Days from the civil epoch 1970-01-01 for a proleptic Gregorian date
(the arithmetic pandas Timestamps implement at day granularity). -/
def daysFromCivil (y m d : Int) : Int :=
  let y2 : Int := if m ≤ 2 then y - 1 else y
  let era : Int := (if 0 ≤ y2 then y2 else y2 - 399) / 400
  let yoe : Int := y2 - era * 400
  let mp : Int := (m + 9) % 12
  let doy : Int := (153 * mp + 2) / 5 + d - 1
  let doe : Int := yoe * 365 + yoe / 4 - yoe / 100 + doy
  era * 146097 + doe - 719468

/-- Civil (year, month, day) of an epoch day number; inverse of
daysFromCivil on valid dates. -/
def civilFromDays (z : Int) : Int × Int × Int :=
  let z2 : Int := z + 719468
  let era : Int := (if 0 ≤ z2 then z2 else z2 - 146096) / 146097
  let doe : Int := z2 - era * 146097
  let yoe : Int := (doe - doe / 1460 + doe / 36524 - doe / 146096) / 365
  let y : Int := yoe + era * 400
  let doy : Int := doe - (365 * yoe + yoe / 4 - yoe / 100)
  let mp : Int := (5 * doy + 2) / 153
  let d : Int := doy - (153 * mp + 2) / 5 + 1
  let m : Int := mp + (if mp < 10 then 3 else -9)
  (if m ≤ 2 then y + 1 else y, m, d)

/-- Month component of an epoch day number, modelling Series.dt.month. -/
def monthOfDay (z : Int) : Int := (civilFromDays z).2.1

/-- Raw cell of a date column: a native date value, text, or blank (NaN). -/
inductive Cell where
| date (d : Int)
| text (s : String)
| blank
deriving DecidableEq, Repr

/-- Leap year in the proleptic Gregorian calendar. -/
def isLeap (y : Int) : Bool := (y % 4 == 0 && y % 100 != 0) || y % 400 == 0

/-- Length of a month. -/
def daysInMonth (y m : Int) : Int :=
  if m == 2 then (if isLeap y then 29 else 28)
  else if m == 4 || m == 6 || m == 9 || m == 11 then 30
  else 31

/-- Month abbreviations for the %b pattern, lowercased. -/
def monthAbbrevs : List (String × Int) :=
  [("jan", 1), ("feb", 2), ("mar", 3), ("apr", 4), ("may", 5), ("jun", 6),
   ("jul", 7), ("aug", 8), ("sep", 9), ("oct", 10), ("nov", 11), ("dec", 12)]

/-- Split a character list on a separator character; n separators yield
n + 1 fields, as Python str.split does. -/
def splitOnChar (sep : Char) : List Char → List (List Char)
| [] => [[]]
| c :: t =>
  match splitOnChar sep t with
  | [] => if c = sep then [[], []] else [[c]]
  | h :: r => if c = sep then [] :: h :: r else (c :: h) :: r

/-- Digit-string to number: all characters decimal digits and nonempty. -/
def digitsNat? (l : List Char) : Option Nat :=
  if 0 < l.length && l.all Char.isDigit then
    some (l.foldl (fun a c => a * 10 + (c.toNat - 48)) 0)
  else none

/-- Parser for the explicit DD-Mon-YYYY pattern (the format="%d-%b-%Y" retry,
src/app.py line 12), modelled for ASCII input: a 1-2 digit day, a
case-insensitive three-letter month abbreviation, a 4-digit year, with the
day validated against the month length. -/
def dMonYParse (s : String) : Option Int :=
  match splitOnChar '-' s.data with
  | [ds, ms, ys] =>
    match digitsNat? ds,
          (monthAbbrevs.find? (fun p => p.1.data == ms.map Char.toLower)).map (fun p => p.2),
          digitsNat? ys with
    | some d, some m, some y =>
      if 1 ≤ ds.length && ds.length ≤ 2 && ys.length == 4 &&
         1 ≤ d && (d : Int) ≤ daysInMonth (y : Int) m then
        some (daysFromCivil (y : Int) m (d : Int))
      else none
    | _, _, _ => none
  | _ => none

/-- Modelled generic parsing strategy (pd.to_datetime with errors="coerce"),
restricted to the shapes this data exercises: native date cells parse to
themselves, blanks fail, and text is accepted in ISO YYYY-MM-DD form.  The
pipeline definitions are parameterized over the strategy, so the theorems
about parsing policy hold for any generic strategy. -/
def genericParse : Cell → Option Int
| Cell.date d => some d
| Cell.blank => none
| Cell.text s =>
  match splitOnChar '-' s.data with
  | [ys, ms, ds] =>
    match digitsNat? ys, digitsNat? ms, digitsNat? ds with
    | some y, some m, some d =>
      if ys.length == 4 && ms.length == 2 && ds.length == 2 &&
         1 ≤ m && m ≤ 12 && 1 ≤ d && (d : Int) ≤ daysInMonth (y : Int) (m : Int) then
        some (daysFromCivil (y : Int) (m : Int) (d : Int))
      else none
    | _, _, _ => none
  | _ => none

/-- parse_mixed_excel_date (src/app.py lines 8-14): try the generic strategy
first; for non-null values that failed, retry with the DD-Mon-YYYY pattern
(a native date value retried against the text pattern coerces to NaT). -/
def parse_mixed_excel_date (generic : Cell → Option Int) (c : Cell) : Option Int :=
  match generic c with
  | some d => some d
  | none =>
    match c with
    | Cell.text s => dMonYParse s
    | Cell.date _ => none
    | Cell.blank => none

/-- Raw input row after the schema check and column renaming
(src/app.py lines 90-111).  Null strings are represented as "". -/
structure RawRow where
  employeeCode : String
  leaveType : String
  appliedFrom : Cell
  appliedTill : Cell
  fromSession : String
  toSession : String
  numberOfDays : Option Rat
  appliedOn : Cell
  applierRemarks : String
  status : String
deriving DecidableEq, Repr

/-- Row after string cleaning and date parsing (src/app.py lines 113-127). -/
structure PrepRow where
  employeeCode : String
  leaveType : String
  appliedFrom : Option Int
  appliedTill : Option Int
  fromSession : String
  toSession : String
  numberOfDays : Option Rat
  appliedOn : Option Int
  applierRemarks : String
  status : String
deriving DecidableEq, Repr

/-- Cleaning and parsing pass (src/app.py lines 113-127): strip+title the
session and status columns, parse the three date columns with the mixed
parser, then fill a null AppliedTill from AppliedFrom. -/
def prepRow (generic : Cell → Option Int) (r : RawRow) : PrepRow :=
  let fromParsed := parse_mixed_excel_date generic r.appliedFrom
  let tillParsed := parse_mixed_excel_date generic r.appliedTill
  { employeeCode := r.employeeCode
    leaveType := r.leaveType
    appliedFrom := fromParsed
    appliedTill := match tillParsed with
      | some d => some d
      | none => fromParsed
    fromSession := cleanStr r.fromSession
    toSession := cleanStr r.toSession
    numberOfDays := r.numberOfDays
    appliedOn := parse_mixed_excel_date generic r.appliedOn
    applierRemarks := r.applierRemarks
    status := cleanStr r.status }

/-- Filter predicate (src/app.py lines 133-136): AppliedFrom's month equals
the detected month (false for an unparsed date, as NaT.month compares
unequal) and the lowercased status equals "approved". -/
def keepRow (m : Nat) (r : PrepRow) : Bool :=
  (match r.appliedFrom with
   | some d => monthOfDay d == (m : Int)
   | none => false)
  && (pyLower r.status == "approved")

/-- Request entering the normalization loop: both dates present.  Rows kept
by the filter always have both (AppliedFrom by the month test, AppliedTill
by the fillna). -/
structure LeaveRequest where
  employeeCode : String
  leaveType : String
  appliedFrom : Int
  appliedTill : Int
  fromSession : String
  toSession : String
  numberOfDays : Option Rat
  appliedOn : Option Int
  applierRemarks : String
  status : String
deriving DecidableEq, Repr

/-- Extraction of a loop-ready request from a prepared row. -/
def toRequest (r : PrepRow) : Option LeaveRequest :=
  match r.appliedFrom, r.appliedTill with
  | some f, some t =>
    some { employeeCode := r.employeeCode
           leaveType := r.leaveType
           appliedFrom := f
           appliedTill := t
           fromSession := r.fromSession
           toSession := r.toSession
           numberOfDays := r.numberOfDays
           appliedOn := r.appliedOn
           applierRemarks := r.applierRemarks
           status := r.status }
  | _, _ => none

/-- Normalized output row (src/app.py lines 215-229). -/
structure Row where
  employeeCode : String
  leaveType : String
  appliedFrom : Int
  appliedTill : Int
  fromSession : String
  toSession : String
  numberOfDays : Rat
  appliedOn : Option Int
  applierRemarks : String
  status : String
deriving DecidableEq, Repr

/-- Half-day output row at a single date with matched sessions. -/
def halfRow (r : LeaveRequest) (day : Int) (sess : String) : Row :=
  { employeeCode := r.employeeCode
    leaveType := r.leaveType
    appliedFrom := day
    appliedTill := day
    fromSession := sess
    toSession := sess
    numberOfDays := (1 : Rat) / 2
    appliedOn := r.appliedOn
    applierRemarks := r.applierRemarks
    status := r.status }

/-- Full-span output row with the given bounds and a computed integral
day count. -/
def spanRow (r : LeaveRequest) (s e : Int) (fs ts : String) : Row :=
  { employeeCode := r.employeeCode
    leaveType := r.leaveType
    appliedFrom := s
    appliedTill := e
    fromSession := fs
    toSession := ts
    numberOfDays := ((e - s + 1 : Int) : Rat)
    appliedOn := r.appliedOn
    applierRemarks := r.applierRemarks
    status := r.status }

/-- One iteration of the normalization loop (src/app.py lines 164-210):
full-day fast path, then optional start-half and end-half rows with the
working span trimmed accordingly, then the middle aggregate row guarded by
working start ≤ working end and a positive day count. -/
def normalize (r : LeaveRequest) : List Row :=
  if r.fromSession = "First Session" ∧ r.toSession = "Second Session" then
    [spanRow r r.appliedFrom r.appliedTill r.fromSession r.toSession]
  else
    let startHalf : List Row :=
      if r.fromSession = "Second Session" then
        [halfRow r r.appliedFrom "Second Session"]
      else []
    let fullStart : Int :=
      if r.fromSession = "Second Session" then r.appliedFrom + 1 else r.appliedFrom
    let endHalf : List Row :=
      if r.toSession = "First Session" then
        [halfRow r r.appliedTill "First Session"]
      else []
    let fullEnd : Int :=
      if r.toSession = "First Session" then r.appliedTill - 1 else r.appliedTill
    let middle : List Row :=
      if fullStart ≤ fullEnd then
        if fullEnd - fullStart + 1 > 0 then
          [spanRow r fullStart fullEnd "First Session" "Second Session"]
        else []
      else []
    startHalf ++ endHalf ++ middle

/-- Comparison used by sort_values(["EmployeeCode", "AppliedFrom"])
(src/app.py line 229): lexicographic on employee code then span start. -/
def rowLE (a b : Row) : Bool :=
  decide (a.employeeCode < b.employeeCode) ||
    (a.employeeCode == b.employeeCode && decide (a.appliedFrom ≤ b.appliedFrom))

/-- Batch normalization (src/app.py lines 162-229): run the loop over every
request, collect the rows, then sort by (EmployeeCode, AppliedFrom).
Pandas sort_values on a list of columns uses the stable np.lexsort
indexer, modelled here by the stable mergeSort. -/
def normalizeAll (reqs : List LeaveRequest) : List Row :=
  (reqs.flatMap normalize).mergeSort rowLE

/-- Failure that aborts the whole batch before any row is processed. -/
inductive BatchError where
| monthNotFound
deriving DecidableEq, Repr

/-- End-to-end core pipeline after upload and schema check (src/app.py
lines 72-229): detect the month from the file name (hard stop when absent),
clean and parse the rows, keep the detected month's approved requests,
normalize and sort.  An empty filter result yields an empty output reported
as a user-visible empty state, not a batch error. -/
def pipeline (generic : Cell → Option Int) (fileName : String)
    (rows : List RawRow) : Except BatchError (List Row) :=
  match selectMonth fileName with
  | none => Except.error BatchError.monthNotFound
  | some m =>
    let kept := (rows.map (prepRow generic)).filter (keepRow m)
    Except.ok (normalizeAll (kept.filterMap toRequest))

/-- SESSION_MAP.get (src/app.py lines 244-248): dict lookup returning None
on an unmapped session pair. -/
def sessionMapGet (p : String × String) : Option Nat :=
  if p = ("First Session", "First Session") then some 1
  else if p = ("Second Session", "Second Session") then some 2
  else if p = ("First Session", "Second Session") then some 0
  else none

/-- Zoho payroll row (src/app.py lines 250-263). -/
structure PayrollRow where
  employeeId : String
  leaveType : String
  unit : String
  fromDate : Int
  toDate : Int
  session : Option Nat
  startTime : String
  daysTaken : Rat
  reason : String
deriving DecidableEq, Repr

/-- Projection of one normalized row into the payroll schema
(src/app.py lines 250-263). -/
def payrollRow (r : Row) : PayrollRow :=
  { employeeId := r.employeeCode
    leaveType := r.leaveType
    unit := "Day"
    fromDate := r.appliedFrom
    toDate := r.appliedTill
    session := sessionMapGet (r.fromSession, r.toSession)
    startTime := ""
    daysTaken := r.numberOfDays
    reason := r.applierRemarks }

/-- Payroll projection of the whole normalized table. -/
def payrollAll (rows : List Row) : List PayrollRow := rows.map payrollRow

/-- Projection of a half-day row: span start. -/
@[simp] theorem halfRow_appliedFrom (r : LeaveRequest) (d : Int) (s : String) :
    (halfRow r d s).appliedFrom = d := rfl

/-- Projection of a half-day row: span end. -/
@[simp] theorem halfRow_appliedTill (r : LeaveRequest) (d : Int) (s : String) :
    (halfRow r d s).appliedTill = d := rfl

/-- Projection of a half-day row: its day count is one half. -/
@[simp] theorem halfRow_numberOfDays (r : LeaveRequest) (d : Int) (s : String) :
    (halfRow r d s).numberOfDays = (1 : Rat)/2 := rfl

/-- Projection of a full-span row: span start. -/
@[simp] theorem spanRow_appliedFrom (r : LeaveRequest) (s e : Int) (fs ts : String) :
    (spanRow r s e fs ts).appliedFrom = s := rfl

/-- Projection of a full-span row: span end. -/
@[simp] theorem spanRow_appliedTill (r : LeaveRequest) (s e : Int) (fs ts : String) :
    (spanRow r s e fs ts).appliedTill = e := rfl

/-- Projection of a full-span row: its day count is the inclusive length. -/
@[simp] theorem spanRow_numberOfDays (r : LeaveRequest) (s e : Int) (fs ts : String) :
    (spanRow r s e fs ts).numberOfDays = ((e - s + 1 : Int) : Rat) := rfl

/-- Packing a valid code point keeps its numeric value. -/
theorem toNat_ofNat_of_valid {n : Nat} (h : n.isValidChar) : (Char.ofNat n).toNat = n := by
  unfold Char.ofNat
  rw [dif_pos h]
  rfl

/-- Lowercasing after uppercasing is plain lowercasing. -/
theorem toLower_toUpper (c : Char) : c.toUpper.toLower = c.toLower := by
  simp only [Char.toUpper, Char.toLower]
  by_cases h : c.toNat ≥ 97 ∧ c.toNat ≤ 122
  · rw [if_pos h]
    have hv : Nat.isValidChar (c.toNat - 32) := Or.inl (by omega)
    have ht : (Char.ofNat (c.toNat - 32)).toNat = c.toNat - 32 := toNat_ofNat_of_valid hv
    rw [ht, if_pos (by omega), if_neg (by omega)]
    rw [show c.toNat - 32 + 32 = c.toNat by omega]
    exact Char.ofNat_toNat c
  · rw [if_neg h]

/-- Lowercasing is idempotent. -/
theorem toLower_toLower (c : Char) : c.toLower.toLower = c.toLower := by
  simp only [Char.toLower]
  by_cases h : c.toNat ≥ 65 ∧ c.toNat ≤ 90
  · rw [if_pos h]
    have hv : Nat.isValidChar (c.toNat + 32) := Or.inl (by omega)
    have ht : (Char.ofNat (c.toNat + 32)).toNat = c.toNat + 32 := toNat_ofNat_of_valid hv
    rw [ht, if_neg (by omega)]
  · rw [if_neg h]
    rw [if_neg h]

/-- Title-casing commutes away under lowercasing, character-list form. -/
theorem map_toLower_titleChars (b : Bool) (l : List Char) :
    (titleChars b l).map Char.toLower = l.map Char.toLower := by
  induction l generalizing b with
  | nil => rfl
  | cons c t ih =>
    simp only [titleChars]
    by_cases ha : c.isAlpha
    · rw [if_pos ha]
      cases b <;> simp [List.map_cons, ih, toLower_toUpper, toLower_toLower]
    · rw [if_neg ha]
      simp [List.map_cons, ih]

/-- Title-casing commutes away under lowercasing. -/
theorem pyLower_pyTitle (t : String) : pyLower (pyTitle t) = pyLower t := by
  unfold pyLower pyTitle
  cases t with
  | mk data => simp [map_toLower_titleChars]

/-- Lowercased cleaned string is the lowercased stripped string: the title
pass the code applies before its lower-case comparison is inert. -/
theorem pyLower_cleanStr (s : String) : pyLower (cleanStr s) = pyLower (pyStrip s) :=
  pyLower_pyTitle (pyStrip s)

/-- Totality of the sort comparison. -/
theorem rowLE_total (a b : Row) : rowLE a b || rowLE b a := by
  simp only [rowLE, Bool.or_eq_true, decide_eq_true_eq, Bool.and_eq_true, beq_iff_eq]
  rcases lt_trichotomy a.employeeCode b.employeeCode with h | h | h
  · exact Or.inl (Or.inl h)
  · rcases le_total a.appliedFrom b.appliedFrom with h2 | h2
    · exact Or.inl (Or.inr ⟨h, h2⟩)
    · exact Or.inr (Or.inr ⟨h.symm, h2⟩)
  · exact Or.inr (Or.inl h)

/-- Transitivity of the sort comparison. -/
theorem rowLE_trans (a b c : Row) : rowLE a b → rowLE b c → rowLE a c := by
  intro h1 h2
  simp only [rowLE, Bool.or_eq_true, decide_eq_true_eq, Bool.and_eq_true, beq_iff_eq] at h1 h2 ⊢
  rcases h1 with h1 | ⟨h1e, h1f⟩ <;> rcases h2 with h2 | ⟨h2e, h2f⟩
  · exact Or.inl (lt_trans h1 h2)
  · exact Or.inl (h2e ▸ h1)
  · exact Or.inl (h1e ▸ h2)
  · exact Or.inr ⟨h1e.trans h2e, le_trans h1f h2f⟩

/-- Concrete request of the C1 scenario: 2025-06-02 .. 2025-06-05,
SecondSession to FirstSession, approved. -/
def reqC1 : LeaveRequest :=
  { employeeCode := "E1"
    leaveType := "CL"
    appliedFrom := daysFromCivil 2025 6 2
    appliedTill := daysFromCivil 2025 6 5
    fromSession := "Second Session"
    toSession := "First Session"
    numberOfDays := none
    appliedOn := none
    applierRemarks := ""
    status := "Approved" }

/-- Claim C1: a request with fromSession = SecondSession and toSession =
FirstSession spanning at least three days (appliedFrom + 2 ≤ appliedTill)
yields exactly three rows: the start half-day (appliedFrom, appliedFrom,
SecondSession, SecondSession, 0.5), the end half-day (appliedTill,
appliedTill, FirstSession, FirstSession, 0.5), and the middle aggregate
spanning [appliedFrom + 1, appliedTill - 1] with sessions (FirstSession,
SecondSession) and dayCount the inclusive day count of that adjusted span
(spanRow computes exactly that count). -/
theorem normalize_second_first_multiday (r : LeaveRequest)
    (hf : r.fromSession = "Second Session") (ht : r.toSession = "First Session")
    (hspan : r.appliedFrom + 2 ≤ r.appliedTill) :
    normalize r =
      [halfRow r r.appliedFrom "Second Session",
       halfRow r r.appliedTill "First Session",
       spanRow r (r.appliedFrom + 1) (r.appliedTill - 1) "First Session" "Second Session"] ∧
    (spanRow r (r.appliedFrom + 1) (r.appliedTill - 1) "First Session" "Second Session").numberOfDays
      = ((r.appliedTill - 1 - (r.appliedFrom + 1) + 1 : Int) : Rat) := by
  have h1 : r.appliedFrom + 1 ≤ r.appliedTill - 1 := by omega
  have h2 : r.appliedTill - 1 - (r.appliedFrom + 1) + 1 > 0 := by omega
  constructor
  · simp only [LeaveApp.normalize, hf, ht, reduceIte, if_pos h1, if_pos h2]
    simp
  · rfl

/-- Witness for C1 at the concrete request of the claim
(2025-06-02 .. 2025-06-05): the three rows (06-02, 06-02, 0.5),
(06-05, 06-05, 0.5) and (06-03, 06-04, 2). -/
theorem normalize_second_first_multiday_witness :
    (reqC1.fromSession = "Second Session" ∧ reqC1.toSession = "First Session" ∧
     reqC1.appliedFrom + 2 ≤ reqC1.appliedTill) ∧
    (normalize reqC1 =
      [halfRow reqC1 reqC1.appliedFrom "Second Session",
       halfRow reqC1 reqC1.appliedTill "First Session",
       spanRow reqC1 (reqC1.appliedFrom + 1) (reqC1.appliedTill - 1) "First Session" "Second Session"] ∧
    (spanRow reqC1 (reqC1.appliedFrom + 1) (reqC1.appliedTill - 1) "First Session" "Second Session").numberOfDays
      = ((reqC1.appliedTill - 1 - (reqC1.appliedFrom + 1) + 1 : Int) : Rat)) ∧
    (normalize reqC1).map (fun row => (row.appliedFrom, row.appliedTill, row.numberOfDays)) =
      [(daysFromCivil 2025 6 2, daysFromCivil 2025 6 2, (1 : Rat)/2),
       (daysFromCivil 2025 6 5, daysFromCivil 2025 6 5, (1 : Rat)/2),
       (daysFromCivil 2025 6 3, daysFromCivil 2025 6 4, 2)] :=
  ⟨⟨rfl, rfl, by decide⟩,
   normalize_second_first_multiday reqC1 rfl rfl (by decide),
   rfl⟩

/-- Claim C2: the full-day fast path.  A request with fromSession = FirstSession
and toSession = SecondSession yields exactly one row spanning
[appliedFrom, appliedTill] with sessions (FirstSession, SecondSession) and
dayCount the inclusive day count, independent of any supplied raw
NumberOfDays value, with no further rows. -/
theorem normalize_fastpath (r : LeaveRequest)
    (hf : r.fromSession = "First Session") (ht : r.toSession = "Second Session") :
    normalize r = [spanRow r r.appliedFrom r.appliedTill "First Session" "Second Session"] ∧
    (spanRow r r.appliedFrom r.appliedTill "First Session" "Second Session").numberOfDays
      = ((r.appliedTill - r.appliedFrom + 1 : Int) : Rat) ∧
    ∀ q : Option Rat, normalize { r with numberOfDays := q } = normalize r := by
  refine ⟨?_, rfl, fun q => rfl⟩
  unfold LeaveApp.normalize
  rw [if_pos ⟨hf, ht⟩, hf, ht]

/-- Concrete request for the C2 witness: 2025-06-02 .. 2025-06-05 full-day,
with a deliberately wrong supplied raw day count. -/
def reqC2 : LeaveRequest :=
  { employeeCode := "E1"
    leaveType := "CL"
    appliedFrom := daysFromCivil 2025 6 2
    appliedTill := daysFromCivil 2025 6 5
    fromSession := "First Session"
    toSession := "Second Session"
    numberOfDays := some 99
    appliedOn := none
    applierRemarks := ""
    status := "Approved" }

/-- Witness for C2 at a concrete full-day request: one row with dayCount 4,
unaffected by the supplied raw day count 99. -/
theorem normalize_fastpath_witness :
    (reqC2.fromSession = "First Session" ∧ reqC2.toSession = "Second Session") ∧
    (normalize reqC2 = [spanRow reqC2 reqC2.appliedFrom reqC2.appliedTill "First Session" "Second Session"] ∧
     (spanRow reqC2 reqC2.appliedFrom reqC2.appliedTill "First Session" "Second Session").numberOfDays
       = ((reqC2.appliedTill - reqC2.appliedFrom + 1 : Int) : Rat) ∧
     ∀ q : Option Rat, normalize { reqC2 with numberOfDays := q } = normalize reqC2) ∧
    (normalize reqC2).map (fun row => row.numberOfDays) = [4] :=
  ⟨⟨rfl, rfl⟩, normalize_fastpath reqC2 rfl rfl, rfl⟩

/-- Claim C4: for a request with appliedFrom ≤ appliedTill, every row the
normalization loop emits has positive dayCount, and that count is either
0.5 or a positive integer. -/
theorem normalize_dayCount_pos (r : LeaveRequest) (h : r.appliedFrom ≤ r.appliedTill) :
    ∀ row ∈ normalize r, 0 < row.numberOfDays ∧
      (row.numberOfDays = (1 : Rat)/2 ∨ ∃ n : Int, 0 < n ∧ row.numberOfDays = (n : Rat)) := by
  intro row hrow
  simp only [LeaveApp.normalize] at hrow
  split_ifs at hrow <;>
    simp only [List.append_nil, List.nil_append, List.singleton_append, List.cons_append,
      List.mem_cons, List.mem_singleton, List.not_mem_nil, or_false] at hrow <;>
    obtain rfl | rfl | rfl := hrow
  all_goals first
    | exact ⟨by norm_num [LeaveApp.halfRow], Or.inl rfl⟩
    | exact ⟨Int.cast_pos.mpr (by omega), Or.inr ⟨_, by omega, rfl⟩⟩

/-- Concrete single-day morning-end request for the C4 witness. -/
def reqC4 : LeaveRequest :=
  { employeeCode := "E1"
    leaveType := "CL"
    appliedFrom := daysFromCivil 2025 6 2
    appliedTill := daysFromCivil 2025 6 2
    fromSession := "First Session"
    toSession := "First Session"
    numberOfDays := none
    appliedOn := none
    applierRemarks := ""
    status := "Approved" }

/-- Witness for C4 at a concrete single-day request. -/
theorem normalize_dayCount_pos_witness :
    reqC4.appliedFrom ≤ reqC4.appliedTill ∧
    ∀ row ∈ normalize reqC4, 0 < row.numberOfDays ∧
      (row.numberOfDays = (1 : Rat)/2 ∨ ∃ n : Int, 0 < n ∧ row.numberOfDays = (n : Rat)) :=
  ⟨by decide, normalize_dayCount_pos reqC4 (by decide)⟩

/-- Claim C10: a request whose session strings (as they stand after the pipeline's
strip + title normalization) match neither "First Session" nor
"Second Session" skips the fast path and both half-day branches, and yields
exactly one full-span aggregate row with sessions (FirstSession,
SecondSession) and the full inclusive day count: unrecognized sessions are
silently treated as full-day leave. -/
theorem normalize_unrecognized_sessions (r : LeaveRequest)
    (hf1 : r.fromSession ≠ "First Session") (hf2 : r.fromSession ≠ "Second Session")
    (ht1 : r.toSession ≠ "First Session") (ht2 : r.toSession ≠ "Second Session")
    (hspan : r.appliedFrom ≤ r.appliedTill) :
    normalize r = [spanRow r r.appliedFrom r.appliedTill "First Session" "Second Session"] ∧
    (spanRow r r.appliedFrom r.appliedTill "First Session" "Second Session").numberOfDays
      = ((r.appliedTill - r.appliedFrom + 1 : Int) : Rat) := by
  have hpos : r.appliedTill - r.appliedFrom + 1 > 0 := by omega
  have hnf : ¬(r.fromSession = "First Session" ∧ r.toSession = "Second Session") :=
    fun hc => hf1 hc.1
  refine ⟨?_, rfl⟩
  simp only [LeaveApp.normalize, if_neg hnf, if_neg hf2, if_neg ht1, if_pos hspan, if_pos hpos]
  simp

/-- Concrete request with a misspelled and a blank session value, exactly as
the cleaning pass would deliver them. -/
def reqC10 : LeaveRequest :=
  { employeeCode := "E1"
    leaveType := "CL"
    appliedFrom := daysFromCivil 2025 6 2
    appliedTill := daysFromCivil 2025 6 5
    fromSession := cleanStr "  hALf dAy "
    toSession := cleanStr ""
    numberOfDays := none
    appliedOn := none
    applierRemarks := ""
    status := "Approved" }

/-- Witness for C10 at a request with a misspelled session ("Half Day" after
title-casing) and a blank one. -/
theorem normalize_unrecognized_sessions_witness :
    (reqC10.fromSession ≠ "First Session" ∧ reqC10.fromSession ≠ "Second Session" ∧
     reqC10.toSession ≠ "First Session" ∧ reqC10.toSession ≠ "Second Session" ∧
     reqC10.appliedFrom ≤ reqC10.appliedTill) ∧
    (normalize reqC10 = [spanRow reqC10 reqC10.appliedFrom reqC10.appliedTill "First Session" "Second Session"] ∧
     (spanRow reqC10 reqC10.appliedFrom reqC10.appliedTill "First Session" "Second Session").numberOfDays
       = ((reqC10.appliedTill - reqC10.appliedFrom + 1 : Int) : Rat)) ∧
    (normalize reqC10).map (fun row => row.numberOfDays) = [4] :=
  ⟨⟨by decide, by decide, by decide, by decide, by decide⟩,
   normalize_unrecognized_sessions reqC10 (by decide) (by decide) (by decide) (by decide) (by decide),
   rfl⟩

/-- Concrete request refuting the literal day-weight conservation reading:
2025-06-02 .. 2025-06-05, SecondSession to FirstSession. -/
def reqC3 : LeaveRequest :=
  { employeeCode := "E1"
    leaveType := "CL"
    appliedFrom := daysFromCivil 2025 6 2
    appliedTill := daysFromCivil 2025 6 5
    fromSession := "Second Session"
    toSession := "First Session"
    numberOfDays := none
    appliedOn := none
    applierRemarks := ""
    status := "Approved" }

/-- Claim C3, counterexample: for the non-fast-path request 2025-06-02 ..
2025-06-05 (SecondSession, FirstSession) the emitted day counts sum to 3
(0.5 + 0.5 + 2), not the inclusive day count 4 of the original span, so the
claimed equality of total day-weight with the inclusive day count fails. -/
theorem sum_dayCount_span_counterexample :
    ¬(reqC3.fromSession = "First Session" ∧ reqC3.toSession = "Second Session") ∧
    ((normalize reqC3).map (fun row => row.numberOfDays)).sum ≠
      ((reqC3.appliedTill - reqC3.appliedFrom + 1 : Int) : Rat) := by
  constructor
  · decide
  · have hlist : normalize reqC3 =
      [halfRow reqC3 reqC3.appliedFrom "Second Session",
       halfRow reqC3 reqC3.appliedTill "First Session",
       spanRow reqC3 (reqC3.appliedFrom + 1) (reqC3.appliedTill - 1)
         "First Session" "Second Session"] := rfl
    rw [hlist]
    simp only [List.map_cons, List.map_nil, List.sum_cons, List.sum_nil,
      halfRow_numberOfDays, spanRow_numberOfDays]
    have h2 : reqC3.appliedTill - 1 - (reqC3.appliedFrom + 1) + 1 = 2 := by decide
    have h4 : reqC3.appliedTill - reqC3.appliedFrom + 1 = 4 := by decide
    rw [h2, h4]
    norm_num

/-- Claim C3, amended: for a request not hitting the fast path (and with
appliedFrom ≤ appliedTill), the union of the emitted rows' spans
reconstructs [appliedFrom, appliedTill] exactly, and the total day-weight
equals the inclusive day count minus one half per half-day trim applied -
except for a single-day request trimmed on both sides, whose two half-day
rows sum to 1. -/
theorem normalize_span_reconstruction (r : LeaveRequest)
    (hnf : ¬(r.fromSession = "First Session" ∧ r.toSession = "Second Session"))
    (hspan : r.appliedFrom ≤ r.appliedTill) :
    (∀ d : Int, (r.appliedFrom ≤ d ∧ d ≤ r.appliedTill) ↔
      ∃ row ∈ normalize r, row.appliedFrom ≤ d ∧ d ≤ row.appliedTill) ∧
    ((normalize r).map (fun row => row.numberOfDays)).sum =
      (if r.fromSession = "Second Session" ∧ r.toSession = "First Session" ∧
          r.appliedFrom = r.appliedTill then (1 : Rat)
       else ((r.appliedTill - r.appliedFrom + 1 : Int) : Rat)
         - (if r.fromSession = "Second Session" then (1 : Rat)/2 else 0)
         - (if r.toSession = "First Session" then (1 : Rat)/2 else 0)) := by
  by_cases hs : r.fromSession = "Second Session" <;>
    by_cases he : r.toSession = "First Session"
  · by_cases h1 : r.appliedFrom + 1 ≤ r.appliedTill - 1
    · have hlist : normalize r =
        [halfRow r r.appliedFrom "Second Session",
         halfRow r r.appliedTill "First Session",
         spanRow r (r.appliedFrom + 1) (r.appliedTill - 1) "First Session" "Second Session"] := by
        simp only [LeaveApp.normalize, if_neg hnf, if_pos hs, if_pos he, if_pos h1,
          if_pos (by omega : r.appliedTill - 1 - (r.appliedFrom + 1) + 1 > 0)]
        simp
      constructor
      · intro d
        rw [hlist]
        simp only [List.mem_cons, List.not_mem_nil, or_false, exists_eq_or_imp, exists_eq_left,
          halfRow_appliedFrom, halfRow_appliedTill, spanRow_appliedFrom, spanRow_appliedTill]
        omega
      · rw [hlist]
        rw [if_neg (by omega :
              ¬(r.fromSession = "Second Session" ∧ r.toSession = "First Session" ∧
                r.appliedFrom = r.appliedTill)),
            if_pos hs, if_pos he]
        simp only [List.map_cons, List.map_nil, List.sum_cons, List.sum_nil,
          halfRow_numberOfDays, spanRow_numberOfDays]
        push_cast
        ring
    · have hlist : normalize r =
        [halfRow r r.appliedFrom "Second Session",
         halfRow r r.appliedTill "First Session"] := by
        simp only [LeaveApp.normalize, if_neg hnf, if_pos hs, if_pos he, if_neg h1]
        simp
      constructor
      · intro d
        rw [hlist]
        simp only [List.mem_cons, List.not_mem_nil, or_false, exists_eq_or_imp, exists_eq_left,
          halfRow_appliedFrom, halfRow_appliedTill]
        omega
      · rw [hlist]
        by_cases h2 : r.appliedFrom = r.appliedTill
        · rw [if_pos ⟨hs, he, h2⟩]
          norm_num
        · rw [if_neg (by tauto), if_pos hs, if_pos he]
          have h3 : r.appliedTill - r.appliedFrom + 1 = 2 := by omega
          rw [h3]
          norm_num
  · by_cases h1 : r.appliedFrom + 1 ≤ r.appliedTill
    · have hlist : normalize r =
        [halfRow r r.appliedFrom "Second Session",
         spanRow r (r.appliedFrom + 1) r.appliedTill "First Session" "Second Session"] := by
        simp only [LeaveApp.normalize, if_neg hnf, if_pos hs, if_neg he, if_pos h1,
          if_pos (by omega : r.appliedTill - (r.appliedFrom + 1) + 1 > 0)]
        simp
      constructor
      · intro d
        rw [hlist]
        simp only [List.mem_cons, List.not_mem_nil, or_false, exists_eq_or_imp, exists_eq_left,
          halfRow_appliedFrom, halfRow_appliedTill, spanRow_appliedFrom, spanRow_appliedTill]
        omega
      · rw [hlist]
        rw [if_neg (by tauto), if_pos hs, if_neg he]
        simp only [List.map_cons, List.map_nil, List.sum_cons, List.sum_nil,
          halfRow_numberOfDays, spanRow_numberOfDays]
        push_cast
        ring
    · have hlist : normalize r = [halfRow r r.appliedFrom "Second Session"] := by
        simp only [LeaveApp.normalize, if_neg hnf, if_pos hs, if_neg he, if_neg h1]
        simp
      constructor
      · intro d
        rw [hlist]
        simp only [List.mem_cons, List.not_mem_nil, or_false, exists_eq_or_imp, exists_eq_left,
          halfRow_appliedFrom, halfRow_appliedTill]
        omega
      · rw [hlist]
        rw [if_neg (by tauto), if_pos hs, if_neg he]
        have h3 : r.appliedTill - r.appliedFrom + 1 = 1 := by omega
        rw [h3]
        norm_num
  · by_cases h1 : r.appliedFrom ≤ r.appliedTill - 1
    · have hlist : normalize r =
        [halfRow r r.appliedTill "First Session",
         spanRow r r.appliedFrom (r.appliedTill - 1) "First Session" "Second Session"] := by
        simp only [LeaveApp.normalize, if_neg hnf, if_neg hs, if_pos he, if_pos h1,
          if_pos (by omega : r.appliedTill - 1 - r.appliedFrom + 1 > 0)]
        simp
      constructor
      · intro d
        rw [hlist]
        simp only [List.mem_cons, List.not_mem_nil, or_false, exists_eq_or_imp, exists_eq_left,
          halfRow_appliedFrom, halfRow_appliedTill, spanRow_appliedFrom, spanRow_appliedTill]
        omega
      · rw [hlist]
        rw [if_neg (by tauto), if_neg hs, if_pos he]
        simp only [List.map_cons, List.map_nil, List.sum_cons, List.sum_nil,
          halfRow_numberOfDays, spanRow_numberOfDays]
        push_cast
        ring
    · have hlist : normalize r = [halfRow r r.appliedTill "First Session"] := by
        simp only [LeaveApp.normalize, if_neg hnf, if_neg hs, if_pos he, if_neg h1]
        simp
      constructor
      · intro d
        rw [hlist]
        simp only [List.mem_cons, List.not_mem_nil, or_false, exists_eq_or_imp, exists_eq_left,
          halfRow_appliedFrom, halfRow_appliedTill]
        omega
      · rw [hlist]
        rw [if_neg (by tauto), if_neg hs, if_pos he]
        have h3 : r.appliedTill - r.appliedFrom + 1 = 1 := by omega
        rw [h3]
        norm_num
  · have hlist : normalize r =
        [spanRow r r.appliedFrom r.appliedTill "First Session" "Second Session"] := by
      simp only [LeaveApp.normalize, if_neg hnf, if_neg hs, if_neg he, if_pos hspan,
        if_pos (by omega : r.appliedTill - r.appliedFrom + 1 > 0)]
      simp
    constructor
    · intro d
      rw [hlist]
      simp only [List.mem_cons, List.not_mem_nil, or_false, exists_eq_or_imp, exists_eq_left,
        spanRow_appliedFrom, spanRow_appliedTill]
    · rw [hlist]
      rw [if_neg (by tauto), if_neg hs, if_neg he]
      simp only [List.map_cons, List.map_nil, List.sum_cons, List.sum_nil, spanRow_numberOfDays]
      push_cast
      ring

/-- Witness for the amended C3 at the request 2025-06-02 .. 2025-06-05
(SecondSession, FirstSession). -/
theorem normalize_span_reconstruction_witness :
    (¬(reqC3.fromSession = "First Session" ∧ reqC3.toSession = "Second Session") ∧
     reqC3.appliedFrom ≤ reqC3.appliedTill) ∧
    ((∀ d : Int, (reqC3.appliedFrom ≤ d ∧ d ≤ reqC3.appliedTill) ↔
        ∃ row ∈ normalize reqC3, row.appliedFrom ≤ d ∧ d ≤ row.appliedTill) ∧
     ((normalize reqC3).map (fun row => row.numberOfDays)).sum =
       (if reqC3.fromSession = "Second Session" ∧ reqC3.toSession = "First Session" ∧
           reqC3.appliedFrom = reqC3.appliedTill then (1 : Rat)
        else ((reqC3.appliedTill - reqC3.appliedFrom + 1 : Int) : Rat)
          - (if reqC3.fromSession = "Second Session" then (1 : Rat)/2 else 0)
          - (if reqC3.toSession = "First Session" then (1 : Rat)/2 else 0))) :=
  ⟨⟨by decide, by decide⟩, normalize_span_reconstruction reqC3 (by decide) (by decide)⟩

/-- Claim C5: selectMonth returns some k exactly when the month list in
enumeration order January..December splits as pre ++ (name, k) :: post with
name a (case-insensitive) substring of the identifier and no earlier name
matching; it returns none exactly when no month name occurs, in which case
the whole pipeline stops with the month-not-found error before processing
any row. -/
theorem selectMonth_first_match (ident : String) (generic : Cell → Option Int)
    (rows : List RawRow) :
    (∀ k : Nat, selectMonth ident = some k ↔
      ∃ name : String, ∃ pre post : List (String × Nat),
        monthNames = pre ++ (name, k) :: post ∧
        strContains (pyLower ident) name = true ∧
        ∀ q ∈ pre, strContains (pyLower ident) q.1 = false) ∧
    (selectMonth ident = none ↔ ∀ q ∈ monthNames, strContains (pyLower ident) q.1 = false) ∧
    (selectMonth ident = none →
      pipeline generic ident rows = Except.error BatchError.monthNotFound) := by
  refine ⟨?_, ?_, ?_⟩
  · intro k
    simp only [LeaveApp.selectMonth, Option.map_eq_some']
    constructor
    · rintro ⟨p, hp, hk⟩
      rw [List.find?_eq_some] at hp
      obtain ⟨hmatch, pre, post, heq, hpre⟩ := hp
      refine ⟨p.1, pre, post, ?_, hmatch, ?_⟩
      · rw [heq]
        congr 1
        rw [show ((p.1, k) : String × Nat) = p by rw [← hk]]
      · intro q hq
        have := hpre q hq
        simpa using this
    · rintro ⟨name, pre, post, heq, hmatch, hpre⟩
      refine ⟨(name, k), ?_, rfl⟩
      rw [List.find?_eq_some]
      refine ⟨hmatch, pre, post, heq, ?_⟩
      intro a ha
      simpa using hpre a ha
  · simp only [LeaveApp.selectMonth, Option.map_eq_none']
    rw [List.find?_eq_none]
    constructor
    · intro h q hq
      have := h q hq
      simpa using this
    · intro h q hq
      simpa using h q hq
  · intro h
    simp [LeaveApp.pipeline, h]

/-- Witness for C5: an identifier containing both "may" and "january" yields
January (first in enumeration order, not date order), and an identifier with
no month name stops the pipeline with the month-not-found error. -/
theorem selectMonth_first_match_witness :
    selectMonth "mayjanuary.csv" = some 1 ∧
    pipeline genericParse "report.csv" [] = Except.error BatchError.monthNotFound :=
  ⟨((selectMonth_first_match "mayjanuary.csv" genericParse []).1 1).mpr
      ⟨"january", [],
       [("february", 2), ("march", 3), ("april", 4), ("may", 5), ("june", 6), ("july", 7),
        ("august", 8), ("september", 9), ("october", 10), ("november", 11), ("december", 12)],
       rfl, by decide, by simp⟩,
   (selectMonth_first_match "report.csv" genericParse []).2.2 (by decide)⟩

/-- Claim C6: the month filter keeps a cleaned row exactly when its
AppliedFrom parses and its month equals the detected month and its status,
trimmed and case-folded, equals "approved" (the intervening title-casing is
inert under case folding); filtering is plain list filtering; and an empty
filter result yields the empty output, not a batch error. -/
theorem filterByMonth_exact (generic : Cell → Option Int) (m : Nat) (raws : List RawRow) :
    (∀ r : RawRow, keepRow m (prepRow generic r) = true ↔
      ((∃ d, parse_mixed_excel_date generic r.appliedFrom = some d ∧ monthOfDay d = (m : Int)) ∧
       pyLower (pyStrip r.status) = "approved")) ∧
    (∀ p : PrepRow, p ∈ (raws.map (prepRow generic)).filter (keepRow m) ↔
      (p ∈ raws.map (prepRow generic) ∧ keepRow m p = true)) ∧
    (∀ fileName : String, selectMonth fileName = some m →
      (raws.map (prepRow generic)).filter (keepRow m) = [] →
      pipeline generic fileName raws = Except.ok []) := by
  refine ⟨?_, ?_, ?_⟩
  · intro r
    simp only [keepRow]
    have hf : (prepRow generic r).appliedFrom = parse_mixed_excel_date generic r.appliedFrom := rfl
    have hst : (prepRow generic r).status = cleanStr r.status := rfl
    rw [hf, hst, pyLower_cleanStr]
    cases h : parse_mixed_excel_date generic r.appliedFrom with
    | none => simp
    | some d =>
      simp only [Bool.and_eq_true, beq_iff_eq]
      constructor
      · rintro ⟨h1, h2⟩
        exact ⟨⟨d, rfl, h1⟩, h2⟩
      · rintro ⟨⟨d2, hd2, h1⟩, h2⟩
        cases Option.some.inj hd2
        exact ⟨h1, h2⟩
  · intro p
    simp [List.mem_filter]
  · intro fileName hsel hkept
    simp only [LeaveApp.pipeline, hsel]
    rw [hkept]
    simp [LeaveApp.normalizeAll]

/-- Concrete approved June raw row with a messy status string, for the C6
witness. -/
def rawC6 : RawRow :=
  { employeeCode := "E1"
    leaveType := "CL"
    appliedFrom := Cell.text "02-Jun-2025"
    appliedTill := Cell.blank
    fromSession := "First Session"
    toSession := "Second Session"
    numberOfDays := none
    appliedOn := Cell.blank
    applierRemarks := ""
    status := " APPROVED  " }

/-- Witness for C6: the June row with status " APPROVED  " is kept for
month 6, and a February run over only that row filters everything out and
returns the empty output rather than an error. -/
theorem filterByMonth_exact_witness :
    keepRow 6 (prepRow genericParse rawC6) = true ∧
    pipeline genericParse "february_report.csv" [rawC6] = Except.ok [] :=
  ⟨((filterByMonth_exact genericParse 6 [rawC6]).1 rawC6).mpr
      ⟨⟨daysFromCivil 2025 6 2, by decide, by decide⟩, by decide⟩,
   (filterByMonth_exact genericParse 2 [rawC6]).2.2 "february_report.csv" (by decide) (by decide)⟩

/-- Claim C7: batch normalization applies the loop to each request,
concatenates (flatMap), and sorts by (EmployeeCode, AppliedFrom): the output
is a permutation of the concatenation, it is pairwise ordered under the
lexicographic comparison, and it is stable - for every key, the rows with
that exact (employeeCode, spanStart) key appear in their original
concatenation order. -/
theorem normalizeAll_sorted_stable (reqs : List LeaveRequest) :
    (normalizeAll reqs).Perm (reqs.flatMap normalize) ∧
    (normalizeAll reqs).Pairwise (fun a b => rowLE a b = true) ∧
    ∀ key : String × Int,
      (normalizeAll reqs).filter (fun row => row.employeeCode == key.1 && row.appliedFrom == key.2)
        = (reqs.flatMap normalize).filter
            (fun row => row.employeeCode == key.1 && row.appliedFrom == key.2) := by
  refine ⟨List.mergeSort_perm _ _, ?_, ?_⟩
  · exact List.sorted_mergeSort rowLE_trans rowLE_total (reqs.flatMap normalize)
  · intro key
    have hpair : ((reqs.flatMap normalize).filter
        (fun row => row.employeeCode == key.1 && row.appliedFrom == key.2)).Pairwise
        (fun a b => rowLE a b) := by
      apply List.pairwise_of_forall_mem_list
      intro a ha b hb
      have ha2 := List.of_mem_filter ha
      have hb2 := List.of_mem_filter hb
      simp only [Bool.and_eq_true, beq_iff_eq] at ha2 hb2
      simp only [rowLE, Bool.or_eq_true, decide_eq_true_eq, Bool.and_eq_true, beq_iff_eq]
      exact Or.inr ⟨ha2.1.trans hb2.1.symm, le_of_eq (ha2.2.trans hb2.2.symm)⟩
    have h1 : List.Sublist ((reqs.flatMap normalize).filter
        (fun row => row.employeeCode == key.1 && row.appliedFrom == key.2))
        ((reqs.flatMap normalize).mergeSort rowLE) :=
      List.sublist_mergeSort rowLE_trans rowLE_total hpair (List.filter_sublist _)
    have h2 := h1.filter (fun row => row.employeeCode == key.1 && row.appliedFrom == key.2)
    rw [List.filter_filter] at h2
    simp only [Bool.and_self] at h2
    have h3 : (((reqs.flatMap normalize).mergeSort rowLE).filter
        (fun row => row.employeeCode == key.1 && row.appliedFrom == key.2)).Perm
        ((reqs.flatMap normalize).filter
        (fun row => row.employeeCode == key.1 && row.appliedFrom == key.2)) :=
      (List.mergeSort_perm _ _).filter _
    exact (h2.eq_of_length h3.length_eq.symm).symm

/-- Claim C8: date parsing tries the generic strategy first and keeps its
result when it succeeds; a text value the generic strategy rejects is
retried against the DD-Mon-YYYY pattern; a non-text value the generic
strategy rejects stays null; a null AppliedTill after parsing defaults to
the parsed AppliedFrom; a row whose AppliedFrom stays null is excluded by
the filter; and dropping such a row leaves the rest of the batch's output
unchanged (exclusion is non-fatal). -/
theorem date_parse_policy (generic : Cell → Option Int) :
    (∀ c : Cell, ∀ d : Int, generic c = some d → parse_mixed_excel_date generic c = some d) ∧
    (∀ s : String, generic (Cell.text s) = none →
      parse_mixed_excel_date generic (Cell.text s) = dMonYParse s) ∧
    (∀ c : Cell, generic c = none → (∀ s, c ≠ Cell.text s) →
      parse_mixed_excel_date generic c = none) ∧
    (∀ r : RawRow, parse_mixed_excel_date generic r.appliedTill = none →
      (prepRow generic r).appliedTill = (prepRow generic r).appliedFrom) ∧
    (∀ m : Nat, ∀ r : RawRow, (prepRow generic r).appliedFrom = none →
      keepRow m (prepRow generic r) = false) ∧
    (∀ fileName : String, ∀ pre post : List RawRow, ∀ bad : RawRow,
      (prepRow generic bad).appliedFrom = none →
      pipeline generic fileName (pre ++ bad :: post) = pipeline generic fileName (pre ++ post)) := by
  refine ⟨?_, ?_, ?_, ?_, ?_, ?_⟩
  · intro c d h
    simp [LeaveApp.parse_mixed_excel_date, h]
  · intro s h
    simp [LeaveApp.parse_mixed_excel_date, h]
  · intro c h hne
    cases c with
    | text s => exact absurd rfl (hne s)
    | date d => simp [LeaveApp.parse_mixed_excel_date, h]
    | blank => simp [LeaveApp.parse_mixed_excel_date, h]
  · intro r h
    simp only [LeaveApp.prepRow, h]
  · intro m r h
    simp [LeaveApp.keepRow, h]
  · intro fileName pre post bad h
    cases hsel : selectMonth fileName with
    | none => simp [LeaveApp.pipeline, hsel]
    | some m =>
      have hk : keepRow m (prepRow generic bad) = false := by
        simp [LeaveApp.keepRow, h]
      simp [LeaveApp.pipeline, hsel, List.map_append, List.filter_append, List.filter_cons, hk]

/-- Concrete raw row whose AppliedTill is unparseable text, for the C8
witness: the fillna makes it a single-day leave. -/
def rawC8 : RawRow :=
  { employeeCode := "E1"
    leaveType := "CL"
    appliedFrom := Cell.text "02-Jun-2025"
    appliedTill := Cell.text "garbage"
    fromSession := "First Session"
    toSession := "Second Session"
    numberOfDays := none
    appliedOn := Cell.blank
    applierRemarks := ""
    status := "Approved" }

/-- Concrete raw row whose AppliedFrom fails both parsers, for the C8
witness: it is dropped without affecting the rest of the batch. -/
def badC8 : RawRow :=
  { employeeCode := "E2"
    leaveType := "CL"
    appliedFrom := Cell.text "junk"
    appliedTill := Cell.blank
    fromSession := "First Session"
    toSession := "Second Session"
    numberOfDays := none
    appliedOn := Cell.blank
    applierRemarks := ""
    status := "Approved" }

/-- Witness for C8: the generic strategy wins when it succeeds, the
DD-Mon-YYYY retry handles what it rejects, an unparseable AppliedTill
defaults to AppliedFrom, and a row with an unparseable AppliedFrom drops
out of the batch without changing the rest. -/
theorem date_parse_policy_witness :
    parse_mixed_excel_date genericParse (Cell.text "2025-06-04") = some (daysFromCivil 2025 6 4) ∧
    parse_mixed_excel_date genericParse (Cell.text "04-Jun-2025") = dMonYParse "04-Jun-2025" ∧
    parse_mixed_excel_date genericParse Cell.blank = none ∧
    (prepRow genericParse rawC8).appliedTill = (prepRow genericParse rawC8).appliedFrom ∧
    keepRow 6 (prepRow genericParse badC8) = false ∧
    pipeline genericParse "june_leave.csv" ([rawC8] ++ badC8 :: []) =
      pipeline genericParse "june_leave.csv" ([rawC8] ++ []) :=
  ⟨(date_parse_policy genericParse).1 (Cell.text "2025-06-04") (daysFromCivil 2025 6 4) (by decide),
   (date_parse_policy genericParse).2.1 "04-Jun-2025" (by decide),
   (date_parse_policy genericParse).2.2.1 Cell.blank (by decide) (fun s h => Cell.noConfusion h),
   (date_parse_policy genericParse).2.2.2.1 rawC8 (by decide),
   (date_parse_policy genericParse).2.2.2.2.1 6 badC8 (by decide),
   (date_parse_policy genericParse).2.2.2.2.2 "june_leave.csv" [rawC8] [] badC8 (by decide)⟩

/-- Claim C9: the payroll projection maps (FirstSession, FirstSession) to 1,
(SecondSession, SecondSession) to 2 and (FirstSession, SecondSession) to 0,
and any other session pair to the absent code none rather than an error;
every projected row's session code is exactly this lookup. -/
theorem payroll_session_map (f t : String) :
    sessionMapGet ("First Session", "First Session") = some 1 ∧
    sessionMapGet ("Second Session", "Second Session") = some 2 ∧
    sessionMapGet ("First Session", "Second Session") = some 0 ∧
    ((f, t) ≠ ("First Session", "First Session") →
     (f, t) ≠ ("Second Session", "Second Session") →
     (f, t) ≠ ("First Session", "Second Session") →
     sessionMapGet (f, t) = none) ∧
    (∀ r : Row, (payrollRow r).session = sessionMapGet (r.fromSession, r.toSession)) := by
  refine ⟨rfl, rfl, rfl, ?_, fun r => rfl⟩
  intro h1 h2 h3
  simp [LeaveApp.sessionMapGet, h1, h2, h3]

/-- Witness for C9: the unmapped pair (SecondSession, FirstSession) - which
the normalizer never emits - yields the absent code none. -/
theorem payroll_session_map_witness :
    sessionMapGet ("Second Session", "First Session") = none :=
  (payroll_session_map "Second Session" "First Session").2.2.2.1
    (by decide) (by decide) (by decide)

end LeaveApp
